import Mathlib

/-!
Verification of the Linjebok watcher (`watch_updatedate.py`).

The development shallowly embeds the watcher's state store, extractor,
differ/notifier and scheduler startup.  External effects (state-file
writes, e-mails, warning log lines) are recorded in a `Trace`; Python
exceptions are modelled with `Except`.  An HTML page is modelled after
parsing, as the sequence of its elements in document order, each element
carrying exactly the fields the extractor inspects: the BeautifulSoup
`.string` of an `h3` heading and the `decode_contents()` inner markup of
a `p` paragraph.  The string processing applied to the paragraph's inner
markup (`str.replace`, `re.split`, `re.sub`, `str.strip`) is embedded
character by character.
-/

/-- Whitespace characters recognised by Python's `str.strip()` and the
regex class `\s` (ASCII range). -/
def isPySpace (c : Char) : Bool :=
  c = ' ' || c = '\t' || c = '\n' || c = '\r' || c = '\x0b' || c = '\x0c'

/-- Python `str.strip()`: drop leading and trailing whitespace. -/
def pyStrip (l : List Char) : List Char :=
  ((l.dropWhile isPySpace).reverse.dropWhile isPySpace).reverse

/-- Python `text.replace("&nbsp;", " ")`: replace every occurrence,
scanning left to right, non-overlapping. -/
def replaceNbsp : List Char → List Char
  | '&' :: 'n' :: 'b' :: 's' :: 'p' :: ';' :: rest => ' ' :: replaceNbsp rest
  | c :: cs => c :: replaceNbsp cs
  | [] => []

/-- After the literal `<br`: skip the maximal run of whitespace (greedy
`\s*`, which cannot backtrack usefully here since `/` and `>` are not
whitespace), then accept `>` or `/>`, returning the remaining input. -/
def brTail : List Char → Option (List Char)
  | [] => none
  | c :: cs =>
    if isPySpace c then brTail cs
    else if c = '>' then some cs
    else if c = '/' then
      match cs with
      | '>' :: cs2 => some cs2
      | _ => none
    else none

/-- Match the regex `<br\s*/?>` at the head of the input; on success
return the input after the matched marker. -/
def brMatch : List Char → Option (List Char)
  | '<' :: 'b' :: 'r' :: rest => brTail rest
  | _ => none

/-- `re.split(r"<br\s*/?>", text)`: scan left to right, splitting at each
match and resuming after it.  Fuel-indexed so the definition computes by
reduction; a match consumes at least four characters, so fuel equal to
the input length is never exhausted. -/
def splitBrFuel : Nat → List Char → List (List Char)
  | 0, l => [l]
  | fuel + 1, l =>
    match brMatch l with
    | some rest => [] :: splitBrFuel fuel rest
    | none =>
      match l with
      | [] => [[]]
      | c :: cs =>
        match splitBrFuel fuel cs with
        | t :: ts => (c :: t) :: ts
        | [] => [[c]]

def splitBr (l : List Char) : List (List Char) := splitBrFuel l.length l

/-- From the character after a `<`: scan to the first `>`, failing on a
newline first (`.` in the pattern `<.*?>` does not match `\n`); on
success return the input after that `>`. -/
def tagEnd : List Char → Option (List Char)
  | [] => none
  | c :: cs => if c = '>' then some cs else if c = '\n' then none else tagEnd cs

/-- `re.sub(r"<.*?>", "", part)`: delete every span running from a `<` to
the first following `>` on the same line; a `<` with no such `>` is kept.
Fuel-indexed as in `splitBrFuel`. -/
def stripTagsFuel : Nat → List Char → List Char
  | 0, l => l
  | _, [] => []
  | fuel + 1, c :: cs =>
    if c = '<' then
      match tagEnd cs with
      | some rest => stripTagsFuel fuel rest
      | none => c :: stripTagsFuel fuel cs
    else c :: stripTagsFuel fuel cs

def stripTags (l : List Char) : List Char := stripTagsFuel l.length l

/-- Lowercasing as performed by a case-insensitive regex match, for the
characters relevant to this page: ASCII letters plus the Swedish
letters appearing in the fixed pattern. -/
def lowerChar (c : Char) : Char :=
  if c = 'Ä' then 'ä' else if c = 'Ö' then 'ö' else if c = 'Å' then 'å' else c.toLower

def listStartsWith : List Char → List Char → Bool
  | [], _ => true
  | _ :: _, [] => false
  | a :: as, b :: bs => a = b && listStartsWith as bs

def listContainsSub (needle : List Char) : List Char → Bool
  | [] => needle.isEmpty
  | c :: cs => listStartsWith needle (c :: cs) || listContainsSub needle cs

/-- The fixed heading pattern of `extract_latest_changes`, lowercased. -/
def headerPattern : List Char :=
  String.data ("senaste publicerade ändringar")

/-- `re.compile("Senaste publicerade ändringar", re.I).search(s)`: a
case-insensitive substring test against the heading's string. -/
def matchesHeader (s : String) : Bool :=
  listContainsSub headerPattern (s.data.map lowerChar)

/-- One element of the parsed page, in document order: an `h3` heading
carrying its BeautifulSoup `.string` (`none` when the tag does not
contain exactly one string), a `p` paragraph carrying its
`decode_contents()` inner markup, or any other element. -/
inductive Node
  | h3 (s : Option String)
  | p (inner : String)
  | other
deriving DecidableEq

/-- `soup.find("h3", string=re.compile("Senaste publicerade ändringar", re.I))`:
return the elements after the first matching `h3`, or `none` when no
`h3` matches. -/
def findHeaderTail : List Node → Option (List Node)
  | [] => none
  | Node.h3 (some s) :: rest =>
    if matchesHeader s then some rest else findHeaderTail rest
  | _ :: rest => findHeaderTail rest

/-- `header.find_next("p")`: the inner markup of the next `p` element in
document order after the header, or `none`. -/
def findNextP : List Node → Option String
  | [] => none
  | Node.p inner :: _ => some inner
  | _ :: rest => findNextP rest

inductive ExtractErr
  | headerNotFound
  | paragraphNotFound
deriving DecidableEq

/-- The entry-building loop of `extract_latest_changes`: decode `&nbsp;`
in the paragraph's inner markup, split on `<br>` markers, then for each
part strip tags, strip whitespace, and keep the non-empty results in
order. -/
def processInner (inner : String) : List String :=
  (splitBr (replaceNbsp inner.data)).filterMap fun part =>
    let clean := pyStrip (stripTags part)
    if clean = [] then none else some (String.mk clean)

/-- `extract_latest_changes(html)`, over the parsed document. -/
def extract_latest_changes (doc : List Node) : Except ExtractErr (List String) :=
  match findHeaderTail doc with
  | none => Except.error ExtractErr.headerNotFound
  | some rest =>
    match findNextP rest with
    | none => Except.error ExtractErr.paragraphNotFound
    | some inner => Except.ok (processInner inner)

/-- The exceptions a cycle can raise: a failed HTTP fetch, a failed
extraction, `send_email`'s missing-configuration error, and the
`IndexError` from `entries[0]` on an empty bootstrap list. -/
inductive CycleErr
  | fetchFailed
  | extractFailed (e : ExtractErr)
  | smtpNotConfigured
  | indexError
deriving DecidableEq

/-- The externally observable effects of one cycle: the arguments of the
`save_last_seen` calls in order, the number of e-mails sent, and the
number of warning log lines. -/
structure Trace where
  saves : List (List String)
  emails : Nat
  warns : Nat
deriving DecidableEq

/-- The result of `fetch_html`: the parsed page, or a raised transport
error. -/
inductive FetchResult
  | ok (doc : List Node)
  | failed
deriving DecidableEq

/-- `check_once(cfg, last_seen)` given a successfully fetched page.
`sendOk` tells whether `send_email` succeeds or raises (missing SMTP
configuration or transport failure).  Returns the raised exception or
the returned list, together with the trace of effects performed before
returning or raising. -/
def check_once (doc : List Node) (sendOk : Bool) (lastSeen : Option (List String)) :
    Except CycleErr (List String) × Trace :=
  match extract_latest_changes doc with
  | Except.error e => (Except.error (CycleErr.extractFailed e), ⟨[], 0, 0⟩)
  | Except.ok entries =>
    if entries = [] then
      (Except.ok (lastSeen.getD []), ⟨[], 0, 1⟩)
    else
      match lastSeen with
      | none => (Except.ok entries, ⟨[entries], 0, 0⟩)
      | some lastList =>
        let newEntries := entries.filter fun e => !(lastList.contains e)
        if newEntries = [] then
          (Except.ok lastList, ⟨[], 0, 0⟩)
        else if sendOk then
          (Except.ok entries, ⟨[entries], 1, 0⟩)
        else
          (Except.error CycleErr.smtpNotConfigured, ⟨[], 0, 0⟩)

/-- One full cycle including the `fetch_html` call at the top of
`check_once`. -/
def check_once_cycle (f : FetchResult) (sendOk : Bool) (lastSeen : Option (List String)) :
    Except CycleErr (List String) × Trace :=
  match f with
  | FetchResult.failed => (Except.error CycleErr.fetchFailed, ⟨[], 0, 0⟩)
  | FetchResult.ok doc => check_once doc sendOk lastSeen

/-- One iteration of the polling loop in `main`: the cycle runs inside
`try ... except Exception`, so an exception is logged and `last_seen`
is left unchanged. -/
def poll_iteration (f : FetchResult) (sendOk : Bool) (lastSeen : List String) :
    List String × Trace :=
  match check_once_cycle f sendOk (some lastSeen) with
  | (Except.ok v, t) => (v, t)
  | (Except.error _, t) => (lastSeen, t)

/-- The startup portion of `main` after `load_last_seen`: when no prior
state exists, one bootstrap fetch+extract+save runs outside any handler,
so any exception there propagates out of `main`.  With a non-empty list
the bootstrap saves and logs without sending e-mail; with an empty list
it saves and then raises `IndexError` on `entries[0]`. -/
def main_startup (loadRes : Option (List String)) (f : FetchResult) :
    Except CycleErr (List String) × Trace :=
  match loadRes with
  | some l => (Except.ok l, ⟨[], 0, 0⟩)
  | none =>
    match f with
    | FetchResult.failed => (Except.error CycleErr.fetchFailed, ⟨[], 0, 0⟩)
    | FetchResult.ok doc =>
      match extract_latest_changes doc with
      | Except.error e => (Except.error (CycleErr.extractFailed e), ⟨[], 0, 0⟩)
      | Except.ok entries =>
        if entries = [] then (Except.error CycleErr.indexError, ⟨[entries], 0, 0⟩)
        else (Except.ok entries, ⟨[entries], 0, 0⟩)

/-- A parsed JSON document, as `json.load` produces it. -/
inductive JsonVal
  | null
  | bool (b : Bool)
  | num (n : Int)
  | str (s : String)
  | arr (items : List JsonVal)
  | obj (fields : List (String × JsonVal))

/-- Python `dict.get` on an object built by `json.load`: with duplicate
keys the last occurrence wins; a missing key yields `none`. -/
def dictGet : List (String × JsonVal) → String → Option JsonVal
  | [], _ => none
  | (k, v) :: rest, key =>
    match dictGet rest key with
    | some v2 => some v2
    | none => if k = key then some v else none

/-- The key under which the watcher persists its state. -/
def stateKey : String := "last_seen_changes"

/-- The outcome of `open` + `json.load` on the state file: the file is
missing (`FileNotFoundError`), reading or parsing raised some other
exception, or a JSON document was produced. -/
inductive ReadResult
  | notFound
  | failure
  | ok (j : JsonVal)

/-- `load_last_seen(path)`: the returned value together with the number
of warning log lines.  `data.get` on a non-object raises
`AttributeError`, which the handler turns into a warning and `None`;
a JSON `null` value is Python `None`. -/
def load_last_seen (r : ReadResult) : Option JsonVal × Nat :=
  match r with
  | ReadResult.notFound => (none, 0)
  | ReadResult.failure => (none, 1)
  | ReadResult.ok (JsonVal.obj fields) =>
    match dictGet fields stateKey with
    | none => (none, 0)
    | some JsonVal.null => (none, 0)
    | some v => (some v, 0)
  | ReadResult.ok _ => (none, 1)

/-- A page whose change paragraph lists entries `b` then `a`. -/
def doc1 : List Node :=
  [Node.h3 (some ("Senaste publicerade ändringar")), Node.p ("b<br>a")]

/-- A page whose change paragraph repeats one entry. -/
def doc9 : List Node :=
  [Node.h3 (some ("Senaste publicerade ändringar")), Node.p ("a<br>a")]

/-- A page whose change paragraph contains only markup and whitespace,
so extraction yields the empty list. -/
def docE : List Node :=
  [Node.h3 (some ("Senaste publicerade ändringar")), Node.p ("  <br> <b></b> ")]

/-- A page exercising the extraction pipeline: case-insensitive heading
match, `&nbsp;` decoding, the `<br>` marker variants, tag stripping, a
`<` span crossing a newline (kept), and empty-fragment removal. -/
def docW : List Node :=
  [Node.other,
   Node.h3 none,
   Node.h3 (some ("Nyheter")),
   Node.h3 (some ("xx SENASTE PUBLICERADE ÄNDRINGAR yy")),
   Node.other,
   Node.p (" a&nbsp;b<br/><i>c</i><br >  <br>x<y\nz>")]

/-- The document tail after `docW`'s matching heading. -/
def docWTail : List Node :=
  [Node.other, Node.p (" a&nbsp;b<br/><i>c</i><br >  <br>x<y\nz>")]

example : extract_latest_changes doc1 = Except.ok (["b", "a"]) := rfl
example : extract_latest_changes doc9 = Except.ok (["a", "a"]) := rfl
example : extract_latest_changes docE = Except.ok ([]) := rfl
example : extract_latest_changes docW = Except.ok (["a b", "c", "x<y\nz>"]) := rfl
example : extract_latest_changes [] = Except.error ExtractErr.headerNotFound := rfl
example : findHeaderTail docW = some docWTail := rfl

/-! ### Helper lemmas -/

theorem string_mk_eq_empty_iff (l : List Char) : (String.mk l = "") ↔ l = [] := by
  constructor
  · intro h
    have h2 := congrArg String.data h
    simpa using h2
  · intro h
    subst h
    rfl

theorem contains_true_of_mem (l : List String) (a : String) (h : a ∈ l) :
    l.contains a = true := by
  simp only [List.contains, List.elem_iff]
  exact h

/-- The entry-building loop written as the claim describes it: map each
fragment through tag stripping and whitespace trimming, then discard the
empty results, preserving order. -/
theorem processInner_eq_map_filter (inner : String) :
    processInner inner =
      ((splitBr (replaceNbsp inner.data)).map fun part =>
          String.mk (pyStrip (stripTags part))).filter (fun s => s ≠ "") := by
  unfold processInner
  generalize splitBr (replaceNbsp inner.data) = l
  induction l with
  | nil => rfl
  | cons a as ih =>
    simp only [List.filterMap_cons, List.map_cons, List.filter_cons]
    by_cases h : pyStrip (stripTags a) = []
    · simp [h, ih, string_mk_eq_empty_iff]
    · simp [h, ih, string_mk_eq_empty_iff]

/-! ### C1 -/

/-- C1 counterexample: with stored state `["a"]`, extracted entries
`["b", "a"]` (so `new_entries = ["b"]` is non-empty) and a raising
`send_email`, the cycle raises with an empty save trace: the new entries
list is NOT persisted, refuting the claim that a failed notification does
not block the state update. -/
theorem notify_failure_counterexample :
    extract_latest_changes doc1 = Except.ok (["b", "a"])
  ∧ (["b", "a"].filter fun e => !((["a"] : List String).contains e)) = ["b"]
  ∧ check_once doc1 false (some ["a"]) =
      (Except.error CycleErr.smtpNotConfigured, ⟨[], 0, 0⟩) :=
  ⟨rfl, rfl, rfl⟩

/-- C1 (amended): if the notification send raises during a cycle in which
new entries were detected, the exception propagates before
`save_last_seen` runs, so the new entries list is not persisted and no
effect is recorded; the stored state is only updated on a later cycle
whose send succeeds. -/
theorem notify_failure_blocks_save (doc : List Node) (entries lastList : List String)
    (hex : extract_latest_changes doc = Except.ok entries) (hne : entries ≠ [])
    (hnew : (entries.filter fun e => !(lastList.contains e)) ≠ []) :
    check_once doc false (some lastList) =
      (Except.error CycleErr.smtpNotConfigured, ⟨[], 0, 0⟩) := by
  unfold check_once
  rw [hex]
  simp only [if_neg hne]
  rw [if_neg hnew]
  rfl

theorem notify_failure_blocks_save_witness :
    check_once doc1 false (some ["a"]) =
      (Except.error CycleErr.smtpNotConfigured, ⟨[], 0, 0⟩) :=
  notify_failure_blocks_save doc1 (["b", "a"]) (["a"]) rfl (by decide) (by decide)

/-! ### C2 -/

/-- C2 counterexample: with no prior state on disk and a failing
bootstrap fetch, `main` raises `fetchFailed` out of the unprotected
bootstrap block instead of proceeding to the polling loop: the process
crashes, refuting the claim that the error is logged and the loop
proceeds with state left absent. -/
theorem bootstrap_failure_counterexample :
    main_startup none FetchResult.failed =
      (Except.error CycleErr.fetchFailed, ⟨[], 0, 0⟩) :=
  rfl

/-- C2 (amended): only failures inside the polling loop never crash the
process — an exception raised by a polling cycle is caught and the loop
continues with state unchanged — whereas a bootstrap fetch failure when
no prior state exists propagates out of `main` and is fatal. -/
theorem startup_and_loop_failure (f : FetchResult) (sendOk : Bool)
    (lastList : List String) (e : CycleErr) (t : Trace)
    (h : check_once_cycle f sendOk (some lastList) = (Except.error e, t)) :
    poll_iteration f sendOk lastList = (lastList, t)
  ∧ main_startup none FetchResult.failed =
      (Except.error CycleErr.fetchFailed, ⟨[], 0, 0⟩) := by
  constructor
  · unfold poll_iteration
    rw [h]
  · rfl

theorem startup_and_loop_failure_witness :
    poll_iteration FetchResult.failed true ["a"] = (["a"], ⟨[], 0, 0⟩)
  ∧ main_startup none FetchResult.failed =
      (Except.error CycleErr.fetchFailed, ⟨[], 0, 0⟩) :=
  startup_and_loop_failure FetchResult.failed true (["a"]) CycleErr.fetchFailed ⟨[], 0, 0⟩ rfl

/-! ### C7 -/

/-- C7: when extraction fails (heading or following paragraph missing),
`check_once` raises before any `save_last_seen` call: the trace records
no write, so the existing stored state file is never overwritten. -/
theorem extraction_failure_no_write (doc : List Node) (sendOk : Bool)
    (lastSeen : Option (List String)) (e : ExtractErr)
    (hex : extract_latest_changes doc = Except.error e) :
    check_once doc sendOk lastSeen =
      (Except.error (CycleErr.extractFailed e), ⟨[], 0, 0⟩) := by
  unfold check_once
  rw [hex]

theorem extraction_failure_no_write_witness :
    check_once [] true (some ["a"]) =
      (Except.error (CycleErr.extractFailed ExtractErr.headerNotFound), ⟨[], 0, 0⟩) :=
  extraction_failure_no_write [] true (some ["a"]) ExtractErr.headerNotFound rfl

/-! ### C3 -/

/-- C3: on a non-first run with a non-empty extracted list,
`new_entries` is the filter of the extracted entries by set-membership
absence from the stored list; when it is non-empty (and the send
succeeds) exactly one e-mail is sent and the full new list replaces the
stored state in a single write; when the extracted list has exactly the
same members as the stored list, regardless of order, no e-mail is sent,
nothing is written, and the stored list is returned unchanged. -/
theorem diff_notify_behavior (doc : List Node) (entries lastList : List String)
    (hex : extract_latest_changes doc = Except.ok entries) (hne : entries ≠ []) :
    ((entries.filter fun e => !(lastList.contains e)) ≠ [] →
       check_once doc true (some lastList) = (Except.ok entries, ⟨[entries], 1, 0⟩))
  ∧ ((∀ e ∈ entries, e ∈ lastList) → (∀ e ∈ lastList, e ∈ entries) →
       check_once doc true (some lastList) = (Except.ok lastList, ⟨[], 0, 0⟩)) := by
  constructor
  · intro hnew
    unfold check_once
    rw [hex]
    simp only [if_neg hne]
    rw [if_neg hnew]
    rfl
  · intro h1 _
    have hfilter : (entries.filter fun e => !(lastList.contains e)) = [] := by
      rw [List.filter_eq_nil_iff]
      intro a ha
      simp
      exact h1 a ha
    unfold check_once
    rw [hex]
    simp only [if_neg hne]
    rw [if_pos hfilter]

theorem diff_notify_behavior_witness :
    check_once doc1 true (some ["a"]) = (Except.ok (["b", "a"]), ⟨[["b", "a"]], 1, 0⟩)
  ∧ check_once doc1 true (some ["a", "b"]) = (Except.ok (["a", "b"]), ⟨[], 0, 0⟩) :=
  ⟨(diff_notify_behavior doc1 (["b", "a"]) (["a"]) rfl (by decide)).1 (by decide),
   (diff_notify_behavior doc1 (["b", "a"]) (["a", "b"]) rfl (by decide)).2
     (by decide) (by decide)⟩

/-! ### C4 -/

/-- C4: on the first-ever run (no stored state) with a non-empty
extracted list, both first-run code paths — the `last_seen is None`
branch of `check_once` and the bootstrap block of `main` — perform
exactly one seed write of the full extracted list, send no e-mail, and
return that list as the new state. -/
theorem first_run_seed (doc : List Node) (entries : List String) (sendOk : Bool)
    (hex : extract_latest_changes doc = Except.ok entries) (hne : entries ≠ []) :
    check_once doc sendOk none = (Except.ok entries, ⟨[entries], 0, 0⟩)
  ∧ main_startup none (FetchResult.ok doc) = (Except.ok entries, ⟨[entries], 0, 0⟩) := by
  constructor
  · unfold check_once
    rw [hex]
    simp only [if_neg hne]
  · simp only [main_startup, hex, if_neg hne]

theorem first_run_seed_witness :
    check_once doc1 true none = (Except.ok (["b", "a"]), ⟨[["b", "a"]], 0, 0⟩)
  ∧ main_startup none (FetchResult.ok doc1) =
      (Except.ok (["b", "a"]), ⟨[["b", "a"]], 0, 0⟩) :=
  first_run_seed doc1 (["b", "a"]) true rfl (by decide)

/-! ### C6 -/

/-- C6: on any run whose extraction yields an empty list, `check_once`
logs one warning, performs no write, and returns the previous stored
state unchanged. -/
theorem empty_extraction_no_change (doc : List Node) (sendOk : Bool)
    (lastList : List String) (hex : extract_latest_changes doc = Except.ok []) :
    check_once doc sendOk (some lastList) = (Except.ok lastList, ⟨[], 0, 1⟩) := by
  unfold check_once
  rw [hex]
  rfl

theorem empty_extraction_no_change_witness :
    check_once docE true (some ["a"]) = (Except.ok (["a"]), ⟨[], 0, 1⟩) :=
  empty_extraction_no_change docE true (["a"]) rfl

/-! ### C5 -/

/-- C5: change-list extraction fails with `headerNotFound` when no `h3`
heading matches the fixed pattern case-insensitively, fails with
`paragraphNotFound` when no paragraph follows that heading in document
order, and otherwise returns, in source order, the fragments of the
paragraph's inner markup split on `<br>` line-break markers, with
`&nbsp;` decoded to a space, markup tags stripped, whitespace trimmed,
and empty fragments discarded. -/
theorem extract_characterization (doc : List Node) :
    (findHeaderTail doc = none →
       extract_latest_changes doc = Except.error ExtractErr.headerNotFound)
  ∧ (∀ rest, findHeaderTail doc = some rest → findNextP rest = none →
       extract_latest_changes doc = Except.error ExtractErr.paragraphNotFound)
  ∧ (∀ rest inner, findHeaderTail doc = some rest → findNextP rest = some inner →
       extract_latest_changes doc =
         Except.ok (((splitBr (replaceNbsp inner.data)).map fun part =>
             String.mk (pyStrip (stripTags part))).filter (fun s => s ≠ ""))) := by
  refine ⟨fun h => ?_, fun rest h1 h2 => ?_, fun rest inner h1 h2 => ?_⟩
  · unfold extract_latest_changes
    rw [h]
  · unfold extract_latest_changes
    rw [h1]
    simp only [h2]
  · unfold extract_latest_changes
    rw [h1]
    simp only [h2]
    rw [processInner_eq_map_filter]

theorem extract_characterization_witness :
    extract_latest_changes docW = Except.ok (["a b", "c", "x<y\nz>"]) := by
  have h := (extract_characterization docW).2.2 docWTail
    (" a&nbsp;b<br/><i>c</i><br >  <br>x<y\nz>") rfl rfl
  exact h.trans (by rfl)

/-! ### C8 -/

/-- C8: `load_last_seen` returns the stored value when the file exists
and parses as a JSON object carrying a non-null state key; returns
absent with no warning when the file does not exist; logs one warning
and returns absent for any other read or parse failure, and likewise
when the parsed document is not an object (the `.get` call raises inside
the handler); every case returns normally, so load never raises, and a
malformed file yields the same absent state as a missing file. -/
theorem load_contract :
    load_last_seen ReadResult.notFound = (none, 0)
  ∧ load_last_seen ReadResult.failure = (none, 1)
  ∧ (∀ fields v, dictGet fields stateKey = some v → v ≠ JsonVal.null →
       load_last_seen (ReadResult.ok (JsonVal.obj fields)) = (some v, 0))
  ∧ (∀ j, (∀ fields, j ≠ JsonVal.obj fields) →
       load_last_seen (ReadResult.ok j) = (none, 1))
  ∧ (load_last_seen ReadResult.failure).1 = (load_last_seen ReadResult.notFound).1 := by
  refine ⟨rfl, rfl, fun fields v h hv => ?_, fun j hj => ?_, rfl⟩
  · cases v with
    | null => exact absurd rfl hv
    | bool b => simp only [load_last_seen, h]
    | num n => simp only [load_last_seen, h]
    | str s => simp only [load_last_seen, h]
    | arr items => simp only [load_last_seen, h]
    | obj fs => simp only [load_last_seen, h]
  · cases j with
    | null => rfl
    | bool b => rfl
    | num n => rfl
    | str s => rfl
    | arr items => rfl
    | obj fs => exact absurd rfl (hj fs)

theorem load_contract_witness :
    load_last_seen (ReadResult.ok (JsonVal.obj
        [(stateKey, JsonVal.arr [JsonVal.str ("x")])]))
      = (some (JsonVal.arr [JsonVal.str ("x")]), 0)
  ∧ load_last_seen (ReadResult.ok (JsonVal.arr [])) = (none, 1) :=
  ⟨load_contract.2.2.1 ([(stateKey, JsonVal.arr [JsonVal.str ("x")])])
      (JsonVal.arr [JsonVal.str ("x")]) rfl (fun h => JsonVal.noConfusion h),
   load_contract.2.2.2.1 (JsonVal.arr []) (fun _ h => JsonVal.noConfusion h)⟩

/-! ### C10 -/

/-- C10: a state file that parses as a JSON object lacking the
`last_seen_changes` key, or mapping it to null, loads exactly like a
missing file: absent state, no warning, triggering a fresh bootstrap. -/
theorem missing_key_like_absent (fields : List (String × JsonVal))
    (h : dictGet fields stateKey = none ∨ dictGet fields stateKey = some JsonVal.null) :
    load_last_seen (ReadResult.ok (JsonVal.obj fields)) =
      load_last_seen ReadResult.notFound := by
  cases h with
  | inl h => simp only [load_last_seen, h]
  | inr h => simp only [load_last_seen, h]

theorem missing_key_like_absent_witness :
    load_last_seen (ReadResult.ok (JsonVal.obj [(("other"), JsonVal.str ("y"))])) =
      load_last_seen ReadResult.notFound :=
  missing_key_like_absent ([(("other"), JsonVal.str ("y"))]) (Or.inl rfl)

/-! ### C9 -/

/-- C9 counterexample: a page whose change paragraph repeats an entry
(`a<br>a`) extracts to `["a", "a"]`, and a first run persists exactly
that list: the saved snapshot contains duplicate strings, refuting the
claimed uniqueness invariant. -/
theorem duplicate_entries_counterexample :
    extract_latest_changes doc9 = Except.ok (["a", "a"])
  ∧ (check_once doc9 true none).2.saves = [["a", "a"]]
  ∧ ¬ (["a", "a"] : List String).Nodup :=
  ⟨rfl, rfl, by decide⟩

/-- C9 (amended): every snapshot `check_once` persists is exactly the
extracted entry list, order and multiplicity included; no uniqueness is
enforced, so a page repeating a fragment yields a persisted snapshot
with duplicate strings. -/
theorem saved_equals_extracted (doc : List Node) (sendOk : Bool)
    (lastSeen : Option (List String)) (l : List String)
    (h : l ∈ (check_once doc sendOk lastSeen).2.saves) :
    extract_latest_changes doc = Except.ok l := by
  unfold check_once at h
  cases hex : extract_latest_changes doc with
  | error e =>
    rw [hex] at h
    simp at h
  | ok entries =>
    rw [hex] at h
    by_cases h0 : entries = []
    · simp only [if_pos h0] at h
      simp at h
    · simp only [if_neg h0] at h
      cases lastSeen with
      | none =>
        simp at h
        rw [h]
      | some lastList =>
        by_cases hnew : (entries.filter fun e => !(lastList.contains e)) = []
        · simp only [if_pos hnew] at h
          simp at h
        · simp only [if_neg hnew] at h
          cases sendOk with
          | true =>
            simp at h
            rw [h]
          | false =>
            simp at h

theorem saved_equals_extracted_witness :
    extract_latest_changes doc9 = Except.ok (["a", "a"]) :=
  saved_equals_extracted doc9 true none (["a", "a"]) (by decide)
